import Mathlib

/-!
Verification of the keycloak credential-lifecycle manager
(`src/keycloak/src/retrieval.rs`, `src/keycloak/src/lib.rs`).

Shallow embedding conventions:
* `Instant` (Rust's monotonic clock) is a `Nat`, counted in whole seconds;
  all durations in the source are whole seconds.
* Rust's `i32` is an `Int` together with range hypotheses where the range
  matters; the `as u64` cast is modelled exactly as reduction modulo `2^64`
  of the two's-complement value.
* Network effects are abstracted by an oracle `attempt : Nat → Except ε α`
  giving the outcome of the `j`-th underlying acquisition attempt, and HTTP
  responses by a `status`/`body` record; JSON deserialisation (the external
  `serde_json` crate) is abstracted by a parameter
  `parse : String → Option KeycloakTokenResponse`.
* The scheduler loop body is embedded as a step function producing, besides
  the new store value, an explicit trace of the atomic actions it performs,
  each tagged with whether the store's exclusive (write) lock is held during
  it.  A `tokio::sync::RwLock` write of the whole value is one atomic trace
  event: this is the lock's contract (exclusive access for the swap).
-/

/-- Mirrors `KeycloakConfig` in `src/keycloak/src/lib.rs`. -/
structure KeycloakConfig where
  url : String
  client_id : String
  client_secret : String
deriving DecidableEq, Repr

/-- Mirrors `KeycloakToken` in `src/keycloak/src/lib.rs`; `expiry` is the
monotonic instant in seconds. -/
structure KeycloakToken where
  access_token : String
  expiry : Nat
deriving DecidableEq, Repr

/-- Mirrors the private `KeycloakTokenResponse` struct: `expires_in` is an
`i32`, modelled as an `Int` (range hypotheses supplied where needed). -/
structure KeycloakTokenResponse where
  access_token : String
  expires_in : Int
deriving DecidableEq, Repr

/-- The `leeway_seconds` local constant of `calculate_token_expiry`. -/
def leeway_seconds : Int := 10

/-- The number of seconds of the `Duration` built by
`calculate_token_expiry`: the source computes
`(self.expires_in - leeway_seconds) as u64`, an `i32` subtraction followed
by an `as` cast to `u64`, which takes the two's-complement value modulo
`2^64` (it does not saturate). -/
def expiry_duration_secs (expires_in : Int) : Nat :=
  ((expires_in - leeway_seconds) % (2 ^ 64 : Int)).toNat

/-- Mirrors `KeycloakTokenResponse::calculate_token_expiry`: the issue
instant `now` plus the computed duration. -/
def calculate_token_expiry (expires_in : Int) (now : Nat) : Nat :=
  now + expiry_duration_secs expires_in

/-- Mirrors `derive_expiry_calculated_keycloak_token`, with the issue
instant passed explicitly in place of `Instant::now()`. -/
def derive_expiry_calculated_keycloak_token
    (response : KeycloakTokenResponse) (now : Nat) : KeycloakToken :=
  { access_token := response.access_token
    expiry := calculate_token_expiry response.expires_in now }

/-- An HTTP request as assembled by `retrieve_keycloak_token` through the
`reqwest` builder: method, URL, form body (the `params` map holds a single
entry), and the Basic-auth credential pair handed to `basic_auth`. -/
structure HttpRequest where
  method : String
  url : String
  formBody : List (String × String)
  basicAuth : Option (String × String)
deriving DecidableEq, Repr

/-- The request built by `retrieve_keycloak_token` for a given
configuration: `client.post(keycloak_admin_url).basic_auth(client_id,
Some(client_secret)).form(&params)` with
`params = {"grant_type": "client_credentials"}` and
`keycloak_admin_url = format!("{}/auth/realms/flexys/protocol/openid-connect/token", url)`. -/
def token_request (keycloak_config : KeycloakConfig) : HttpRequest :=
  { method := "POST"
    url := keycloak_config.url ++ "/auth/realms/flexys/protocol/openid-connect/token"
    formBody := [("grant_type", "client_credentials")]
    basicAuth := some (keycloak_config.client_id, keycloak_config.client_secret) }

/-- An HTTP response at the boundary used by `retrieve_keycloak_token`:
status code and body text. -/
structure HttpResponse where
  status : Nat
  body : String
deriving DecidableEq, Repr

/-- The error outcomes of `retrieve_keycloak_token` (in the source both are
`anyhow` errors; the payloads interpolated into their messages are the
observed status code and the raw response text, modelled as constructor
arguments). -/
inductive TokenError where
  | transport : Nat → TokenError
  | parse : String → TokenError
deriving DecidableEq, Repr

/-- Mirrors `retrieve_keycloak_token`, after the request has been sent:
non-200 status bails with the status code; a 200 body that `serde_json`
(abstracted as `parse`) rejects errors with the raw body text; otherwise
the token is derived.  The second component counts exchange attempts
performed by this call. -/
def retrieve_keycloak_token
    (parse : String → Option KeycloakTokenResponse)
    (resp : HttpResponse) (now : Nat) :
    Except TokenError KeycloakToken × Nat :=
  if resp.status ≠ 200 then
    (Except.error (TokenError.transport resp.status), 1)
  else
    match parse resp.body with
    | none => (Except.error (TokenError.parse resp.body), 1)
    | some r => (Except.ok (derive_expiry_calculated_keycloak_token r now), 1)

/-- Whether an acquisition attempt outcome is a failure. -/
def isErr {ε α : Type} : Except ε α → Bool
  | Except.error _ => true
  | Except.ok _ => false

/-- The loop performed by the `backon` `Retryable` combinator under
`ExponentialBuilder::default().with_max_times(max_retries)` (the contract
of the external `backon` crate): the attempt at index `i` runs; success
returns immediately, an error is returned when no retries remain and
otherwise the loop repeats after the backoff delay.  `attempt j` is the
outcome of the `j`-th underlying call; the second component of the result
is the total number of attempts made. -/
def retryLoop {ε α : Type} (attempt : Nat → Except ε α) :
    Nat → Nat → Except ε α × Nat
  | retriesLeft, i =>
    match attempt i with
    | Except.ok a => (Except.ok a, i + 1)
    | Except.error e =>
      match retriesLeft with
      | 0 => (Except.error e, i + 1)
      | Nat.succ r => retryLoop attempt r (i + 1)

/-- Mirrors `keycloak_token_with_retry`: the single acquisition wrapped in
the `backon` retry combinator with `with_max_times(max_retries)`. -/
def keycloak_token_with_retry {ε α : Type} (attempt : Nat → Except ε α)
    (max_retries : Nat) : Except ε α × Nat :=
  retryLoop attempt max_retries 0

/-- The `max_retries` local constant of
`refresh_keycloak_token_periodically_in_background`. -/
def sched_max_retries : Nat := 3

/-- One atomic action of the scheduler loop body, in program order. -/
inductive Event where
  | readExpiry : Event
  | readOldToken : Event
  | netAttempt : Nat → Event
  | storeWrite : KeycloakToken → Event
  | callback : KeycloakToken → Event
deriving DecidableEq, Repr

/-- A trace step: the action together with whether the token cell's
exclusive (write) lock is held while it runs. -/
structure Step where
  event : Event
  writeLockHeld : Bool
deriving DecidableEq, Repr

/-- The network attempts of one refresh as trace steps; no lock is held
during them (`keycloak_token_with_retry` runs before
`keycloak_token.write()` is awaited). -/
def netTrace (n : Nat) : List Step :=
  (List.range n).map (fun j => { event := Event.netAttempt j, writeLockHeld := false })

/-- The observable outcome of one scheduler tick. -/
structure TickOutcome where
  token : KeycloakToken
  terminated : Bool
  networkCalls : Nat
  attempts : Nat
  callbacks : List KeycloakToken
  trace : List Step
deriving Repr

/-- One tick of the loop inside
`refresh_keycloak_token_periodically_in_background`, for tick instant `ts`
and stored token `tok`: the expiry is read under a (shared) read lock; if
`ts` is strictly greater than it, the old token is read for logging, then
`keycloak_token_with_retry` runs with `sched_max_retries`; on failure the
task panics (`unwrap_or_else` + `panic!`), on success the write lock is
taken only for the swap and the callback runs after the lock is dropped. -/
def refresh_tick {ε : Type} (attempt : Nat → Except ε KeycloakToken)
    (tok : KeycloakToken) (ts : Nat) : TickOutcome :=
  if tok.expiry < ts then
    match keycloak_token_with_retry attempt sched_max_retries with
    | (Except.ok newTok, n) =>
      { token := newTok
        terminated := false
        networkCalls := 1
        attempts := n
        callbacks := [newTok]
        trace := { event := Event.readExpiry, writeLockHeld := false } ::
          { event := Event.readOldToken, writeLockHeld := false } ::
          netTrace n ++
          [{ event := Event.storeWrite newTok, writeLockHeld := true },
           { event := Event.callback newTok, writeLockHeld := false }] }
    | (Except.error _, n) =>
      { token := tok
        terminated := true
        networkCalls := 1
        attempts := n
        callbacks := []
        trace := { event := Event.readExpiry, writeLockHeld := false } ::
          { event := Event.readOldToken, writeLockHeld := false } :: netTrace n }
  else
    { token := tok
      terminated := false
      networkCalls := 0
      attempts := 0
      callbacks := []
      trace := [{ event := Event.readExpiry, writeLockHeld := false }] }

/-- The scheduler loop over a list of tick instants, with a per-tick
attempt oracle `oc` (tick index, then attempt index).  A panic terminates
the spawned task: once `terminated` is set no further tick runs. -/
def schedRun {ε : Type} (oc : Nat → Nat → Except ε KeycloakToken) :
    List Nat → Nat → KeycloakToken → Bool →
    KeycloakToken × Bool × List TickOutcome
  | [], _, tok, term => (tok, term, [])
  | ts :: rest, i, tok, term =>
    if term then (tok, term, [])
    else
      let o := refresh_tick (oc i) tok ts
      let r := schedRun oc rest (i + 1) o.token o.terminated
      (r.1, r.2.1, o :: r.2.2)

/-- The store value a concurrently interleaved reader observes after the
first `k` steps of a trace: each `storeWrite` replaces the whole value
atomically (the `RwLock` write contract); every other step leaves it
unchanged. -/
def storeAfter (init : KeycloakToken) : List Step → KeycloakToken
  | [] => init
  | s :: rest =>
    match s.event with
    | Event.storeWrite t => storeAfter t rest
    | _ => storeAfter init rest

/-- Concrete fixture: a stored token about to expire. -/
def tokOld : KeycloakToken := { access_token := "old-token", expiry := 100 }

/-- Concrete fixture: a freshly acquired token. -/
def tokNew : KeycloakToken := { access_token := "new-token", expiry := 300 }

/-- Concrete fixture: an acquisition oracle that always succeeds. -/
def attemptOk : Nat → Except Unit KeycloakToken := fun _ => Except.ok tokNew

/-- Concrete fixture: an acquisition oracle that always fails. -/
def attemptFail : Nat → Except Unit KeycloakToken := fun _ => Except.error ()

/-- Concrete fixture: an oracle failing twice and then succeeding. -/
def attemptFlaky : Nat → Except String Nat := fun j =>
  if j < 2 then Except.error "boom" else Except.ok 7

/-- Concrete fixture: a per-tick oracle that always fails. -/
def ocFail : Nat → Nat → Except Unit KeycloakToken := fun _ _ => Except.error ()

/-- Concrete fixture: a body deserialiser rejecting every body. -/
def parseNone : String → Option KeycloakTokenResponse := fun _ => none

/-- Whether a trace step is an invocation of the rotation callback. -/
def isCallbackStep : Step → Bool := fun s =>
  match s.event with
  | Event.callback _ => true
  | _ => false

/-! ### Retry-loop lemmas -/

theorem retryLoop_attempts_le {ε α : Type} (attempt : Nat → Except ε α) :
    ∀ r i, (retryLoop attempt r i).2 ≤ i + r + 1 := by
  intro r
  induction r with
  | zero =>
    intro i
    unfold retryLoop
    cases h : attempt i <;> simp
  | succ r ih =>
    intro i
    unfold retryLoop
    cases h : attempt i with
    | ok a => simp
    | error e =>
      have := ih (i + 1)
      simpa using this.trans (by omega)

theorem retryLoop_first_success {ε α : Type} (attempt : Nat → Except ε α) :
    ∀ r i m t, i ≤ m → m ≤ i + r →
      (∀ j, i ≤ j → j < m → isErr (attempt j) = true) →
      attempt m = Except.ok t →
      retryLoop attempt r i = (Except.ok t, m + 1) := by
  intro r
  induction r with
  | zero =>
    intro i m t him hmr _ hm
    have hmi : m = i := by omega
    subst hmi
    unfold retryLoop
    rw [hm]
  | succ r ih =>
    intro i m t him hmr hpre hm
    by_cases hmi : m = i
    · subst hmi
      unfold retryLoop
      rw [hm]
    · have hlt : i < m := by omega
      have herr : isErr (attempt i) = true := hpre i le_rfl hlt
      unfold retryLoop
      cases h : attempt i with
      | ok a => rw [h] at herr; simp [isErr] at herr
      | error e =>
        exact ih (i + 1) m t (by omega) (by omega)
          (fun j h1 h2 => hpre j (by omega) h2) hm

theorem retryLoop_all_fail {ε α : Type} (attempt : Nat → Except ε α) :
    ∀ r i, (∀ j, i ≤ j → j ≤ i + r → isErr (attempt j) = true) →
      ∃ e, attempt (i + r) = Except.error e ∧
        retryLoop attempt r i = (Except.error e, i + r + 1) := by
  intro r
  induction r with
  | zero =>
    intro i hall
    have herr : isErr (attempt i) = true := hall i le_rfl (by omega)
    cases h : attempt i with
    | ok a => rw [h] at herr; simp [isErr] at herr
    | error e =>
      refine ⟨e, by simpa using h, ?_⟩
      unfold retryLoop
      rw [h]
  | succ r ih =>
    intro i hall
    have herr : isErr (attempt i) = true := hall i le_rfl (by omega)
    cases h : attempt i with
    | ok a => rw [h] at herr; simp [isErr] at herr
    | error e =>
      obtain ⟨e', he', hloop⟩ := ih (i + 1) (fun j h1 h2 => hall j (by omega) (by omega))
      refine ⟨e', ?_, ?_⟩
      · have : i + 1 + r = i + (r + 1) := by omega
        rwa [this] at he'
      · unfold retryLoop
        rw [h]
        have : i + 1 + r + 1 = i + (r + 1) + 1 := by omega
        rwa [this] at hloop

/-! ### Claim theorems on expiry computation and retry policy -/

/-- C1 (code bug evidence): for a response with `expires_in = 5` (below the
10-second leeway) the computed duration is the wrapped-around value
`2^64 - 5` seconds, not zero, so the expiry does not equal the issue time:
the `as u64` cast wraps instead of clamping. -/
theorem calculate_token_expiry_wraps_below_leeway :
    expiry_duration_secs 5 = 18446744073709551611
    ∧ calculate_token_expiry 5 0 ≠ 0
    ∧ expiry_duration_secs 10 = 0 := by
  refine ⟨by decide, by decide, by decide⟩

/-- C2: for every response with `expires_in` strictly above the 10-second
leeway (and within `i32` range, as the field is an `i32`), the computed
expiry is exactly the issue instant plus `expires_in - 10` seconds. -/
theorem calculate_token_expiry_exact (expires_in : Int) (now : Nat)
    (h10 : 10 < expires_in) (hrange : expires_in < 2 ^ 31) :
    calculate_token_expiry expires_in now = now + (expires_in - 10).toNat := by
  unfold calculate_token_expiry expiry_duration_secs leeway_seconds
  have h64 : (2 : Int) ^ 64 = 18446744073709551616 := by norm_num
  have h31 : (2 : Int) ^ 31 = 2147483648 := by norm_num
  have h1 : (expires_in - 10) % (2 ^ 64 : Int) = expires_in - 10 :=
    Int.emod_eq_of_lt (by omega) (by omega)
  rw [h1]

/-- C2 witness: for `expires_in = 80000` issued at instant 0 the expiry is
exactly 79990. -/
theorem calculate_token_expiry_exact_witness :
    10 < (80000 : Int) ∧ calculate_token_expiry 80000 0 = 79990 := by
  refine ⟨by norm_num, ?_⟩
  have h := calculate_token_expiry_exact 80000 0 (by norm_num) (by norm_num)
  simpa using h

/-- C4: with `max_retries = k` and any sequence of underlying outcomes, the
retrying acquisition makes at most `k + 1` attempts; it stops at the first
success, returning that token after exactly `m + 1` attempts when the first
`m` attempts fail and attempt `m ≤ k` succeeds; and when all `k + 1`
attempts fail it returns the last underlying error. -/
theorem keycloak_token_with_retry_spec {ε α : Type}
    (attempt : Nat → Except ε α) (k : Nat) :
    (keycloak_token_with_retry attempt k).2 ≤ k + 1
    ∧ (∀ m t, m ≤ k → (∀ j, j < m → isErr (attempt j) = true) →
        attempt m = Except.ok t →
        keycloak_token_with_retry attempt k = (Except.ok t, m + 1))
    ∧ ((∀ j, j ≤ k → isErr (attempt j) = true) →
        ∃ e, attempt k = Except.error e ∧
          keycloak_token_with_retry attempt k = (Except.error e, k + 1)) := by
  refine ⟨?_, ?_, ?_⟩
  · simpa using retryLoop_attempts_le attempt k 0
  · intro m t hmk hpre hm
    exact retryLoop_first_success attempt k 0 m t (by omega) (by omega)
      (fun j _ h2 => hpre j h2) hm
  · intro hall
    simpa using retryLoop_all_fail attempt k 0 (fun j _ h2 => hall j (by omega))

/-- C4 witness: with `max_retries = 3` and an oracle failing twice then
succeeding with 7, the result is success 7 after exactly 3 attempts. -/
theorem keycloak_token_with_retry_spec_witness :
    keycloak_token_with_retry attemptFlaky 3 = (Except.ok 7, 3) := by
  have h := (keycloak_token_with_retry_spec attemptFlaky 3).2.1 2 7
    (by decide) (by decide) rfl
  simpa using h

/-- C5: a single call to token acquisition performs exactly one exchange
attempt; a non-200 status yields an error carrying the observed status
code; a 200 body rejected by the deserialiser yields an error preserving
the raw body text; and only a 200 body that parses yields a success
token. -/
theorem retrieve_keycloak_token_spec
    (parse : String → Option KeycloakTokenResponse)
    (resp : HttpResponse) (now : Nat) :
    (retrieve_keycloak_token parse resp now).2 = 1
    ∧ (resp.status ≠ 200 →
        (retrieve_keycloak_token parse resp now).1 =
          Except.error (TokenError.transport resp.status))
    ∧ (resp.status = 200 → parse resp.body = none →
        (retrieve_keycloak_token parse resp now).1 =
          Except.error (TokenError.parse resp.body))
    ∧ (∀ r, resp.status = 200 → parse resp.body = some r →
        (retrieve_keycloak_token parse resp now).1 =
          Except.ok (derive_expiry_calculated_keycloak_token r now)) := by
  unfold retrieve_keycloak_token
  by_cases hs : resp.status = 200
  · refine ⟨?_, fun h => absurd hs h, fun _ hp => ?_, fun r _ hp => ?_⟩
    · simp only [hs]
      cases hb : parse resp.body <;> simp
    · simp [hs, hp]
    · simp [hs, hp]
  · refine ⟨?_, fun _ => ?_, fun h => absurd h hs, fun r h => absurd h hs⟩
    · simp [hs]
    · simp [hs]

/-- C5 witness: a 500 response yields a transport error carrying status
500, in one attempt. -/
theorem retrieve_keycloak_token_spec_witness :
    (retrieve_keycloak_token parseNone { status := 500, body := "oops" } 0).1 =
      Except.error (TokenError.transport 500)
    ∧ (retrieve_keycloak_token parseNone { status := 500, body := "oops" } 0).2 = 1 := by
  have h := retrieve_keycloak_token_spec parseNone { status := 500, body := "oops" } 0
  exact ⟨h.2.1 (by decide), h.1⟩

/-- C9: for every configuration, the acquisition request is a POST to
`{baseUrl}/auth/realms/{realm}/protocol/openid-connect/token` with realm
`flexys`, form body exactly `grant_type=client_credentials`, and Basic
authentication from the client id and client secret. -/
theorem token_request_spec (cfg : KeycloakConfig) :
    (token_request cfg).method = "POST"
    ∧ (∃ realm, realm = "flexys"
        ∧ (token_request cfg).url =
          cfg.url ++ ("/auth/realms/" ++ (realm ++ "/protocol/openid-connect/token")))
    ∧ (token_request cfg).formBody = [("grant_type", "client_credentials")]
    ∧ (token_request cfg).basicAuth = some (cfg.client_id, cfg.client_secret) :=
  ⟨rfl, ⟨"flexys", rfl, rfl⟩, rfl, rfl⟩

/-! ### Trace and store lemmas -/

theorem netTrace_length (n : Nat) : (netTrace n).length = n := by
  simp [netTrace]

theorem netTrace_no_callback (n : Nat) : (netTrace n).countP isCallbackStep = 0 := by
  refine List.countP_eq_zero.mpr ?_
  intro s hs
  simp only [netTrace, List.mem_map, List.mem_range] at hs
  obtain ⟨j, _, rfl⟩ := hs
  simp [isCallbackStep]

theorem storeAfter_fixed (v : KeycloakToken) :
    ∀ steps : List Step,
      (∀ s ∈ steps, ∀ t, s.event = Event.storeWrite t → t = v) →
      storeAfter v steps = v := by
  intro steps
  induction steps with
  | nil => intro _; rfl
  | cons s rest ih =>
    intro h
    have hrest : ∀ s' ∈ rest, ∀ t, s'.event = Event.storeWrite t → t = v :=
      fun s' hs' => h s' (List.mem_cons_of_mem _ hs')
    obtain ⟨ev, wl⟩ := s
    cases ev with
    | storeWrite t =>
      have ht : t = v := h _ (List.mem_cons_self _ _) t rfl
      subst ht
      exact ih hrest
    | readExpiry => exact ih hrest
    | readOldToken => exact ih hrest
    | netAttempt j => exact ih hrest
    | callback t => exact ih hrest

theorem storeAfter_mem (v : KeycloakToken) :
    ∀ (steps : List Step) (init : KeycloakToken),
      (∀ s ∈ steps, ∀ t, s.event = Event.storeWrite t → t = v) →
      storeAfter init steps = init ∨ storeAfter init steps = v := by
  intro steps
  induction steps with
  | nil => intro init _; exact Or.inl rfl
  | cons s rest ih =>
    intro init h
    have hrest : ∀ s' ∈ rest, ∀ t, s'.event = Event.storeWrite t → t = v :=
      fun s' hs' => h s' (List.mem_cons_of_mem _ hs')
    obtain ⟨ev, wl⟩ := s
    cases ev with
    | storeWrite t =>
      have ht : t = v := h _ (List.mem_cons_self _ _) t rfl
      refine Or.inr ?_
      have hred : storeAfter init ({ event := Event.storeWrite t, writeLockHeld := wl } :: rest) =
          storeAfter t rest := rfl
      rw [hred, ht]
      exact storeAfter_fixed v rest hrest
    | readExpiry => exact ih init hrest
    | readOldToken => exact ih init hrest
    | netAttempt j => exact ih init hrest
    | callback t => exact ih init hrest

theorem storeAfter_take (v init : KeycloakToken) (steps : List Step)
    (h : ∀ s ∈ steps, ∀ t, s.event = Event.storeWrite t → t = v) (k : Nat) :
    storeAfter init (steps.take k) = init ∨ storeAfter init (steps.take k) = v :=
  storeAfter_mem v (steps.take k) init
    (fun s hs => h s (List.take_subset k steps hs))

theorem success_trace_facts (newTok : KeycloakToken) (n : Nat) :
    ∀ s ∈ ({ event := Event.readExpiry, writeLockHeld := false } ::
        { event := Event.readOldToken, writeLockHeld := false } ::
        netTrace n ++
          [{ event := Event.storeWrite newTok, writeLockHeld := true },
           { event := Event.callback newTok, writeLockHeld := false }] : List Step),
      (s.writeLockHeld = true → ∃ t, s.event = Event.storeWrite t)
      ∧ (∀ t, s.event = Event.storeWrite t → t = newTok) := by
  intro s hs
  simp only [List.mem_cons, List.mem_append, netTrace, List.mem_map,
    List.mem_range] at hs
  rcases hs with (rfl | rfl | ⟨j, _, rfl⟩) | (rfl | rfl | hfalse)
  · exact ⟨fun h => by simp at h, fun t ht => by simp at ht⟩
  · exact ⟨fun h => by simp at h, fun t ht => by simp at ht⟩
  · exact ⟨fun h => by simp at h, fun t ht => by simp at ht⟩
  · exact ⟨fun _ => ⟨newTok, rfl⟩, fun t ht => (Event.storeWrite.inj ht).symm⟩
  · exact ⟨fun h => by simp at h, fun t ht => by simp at ht⟩
  · exact absurd hfalse (List.not_mem_nil s)

theorem fail_trace_facts (n : Nat) :
    ∀ s ∈ ({ event := Event.readExpiry, writeLockHeld := false } ::
        { event := Event.readOldToken, writeLockHeld := false } ::
        netTrace n : List Step),
      s.writeLockHeld = false ∧ ∀ t, s.event = Event.storeWrite t → False := by
  intro s hs
  simp only [List.mem_cons, netTrace, List.mem_map, List.mem_range] at hs
  rcases hs with rfl | rfl | ⟨j, _, rfl⟩
  · exact ⟨rfl, fun t ht => by simp at ht⟩
  · exact ⟨rfl, fun t ht => by simp at ht⟩
  · exact ⟨rfl, fun t ht => by simp at ht⟩

/-! ### Claim theorems on the refresh scheduler -/

/-- C3 (amended): a tick at or before the stored expiry is a no-op — no
network call, store unchanged, no callback — and a refresh is triggered
exactly when the tick instant is strictly after the stored expiry (the
loop tests `ts.into_std() > expiry`). -/
theorem refresh_tick_trigger_iff {ε : Type}
    (attempt : Nat → Except ε KeycloakToken)
    (tok : KeycloakToken) (ts : Nat) :
    (ts ≤ tok.expiry →
      refresh_tick attempt tok ts =
        { token := tok, terminated := false, networkCalls := 0, attempts := 0,
          callbacks := [],
          trace := [{ event := Event.readExpiry, writeLockHeld := false }] })
    ∧ (tok.expiry < ts → (refresh_tick attempt tok ts).networkCalls = 1) := by
  constructor
  · intro h
    unfold refresh_tick
    rw [if_neg (by omega)]
  · intro h
    unfold refresh_tick
    rw [if_pos h]
    rcases hk : keycloak_token_with_retry attempt sched_max_retries with ⟨res, n⟩
    cases res <;> rfl

/-- C3 witness: a tick at instant 50, strictly before the stored expiry
100, is a no-op, and a tick at 101, strictly after it, performs the one
retrying acquisition. -/
theorem refresh_tick_trigger_iff_witness :
    refresh_tick attemptOk tokOld 50 =
      { token := tokOld, terminated := false, networkCalls := 0, attempts := 0,
        callbacks := [],
        trace := [{ event := Event.readExpiry, writeLockHeld := false }] }
    ∧ (refresh_tick attemptOk tokOld 101).networkCalls = 1 :=
  ⟨(refresh_tick_trigger_iff attemptOk tokOld 50).1 (by decide),
   (refresh_tick_trigger_iff attemptOk tokOld 101).2 (by decide)⟩

/-- C3 counterexample: at a tick instant exactly equal to the stored
expiry (at-or-after per the claim) the code performs zero network calls
and leaves the store unchanged, contradicting the claim that such a tick
invokes the retrying acquisition. -/
theorem refresh_tick_at_expiry_no_refresh :
    100 ≥ tokOld.expiry
    ∧ (refresh_tick attemptOk tokOld 100).networkCalls = 0
    ∧ (refresh_tick attemptOk tokOld 100).token = tokOld := by
  refine ⟨by decide, by decide, by decide⟩

/-- C6: on a successful refresh the rotation callback is invoked exactly
once, with exactly the freshly stored token, and only after the store
update: the trace ends with the store write immediately followed by the
callback, and no callback occurs earlier. -/
theorem refresh_tick_callback_once {ε : Type}
    (attempt : Nat → Except ε KeycloakToken)
    (tok : KeycloakToken) (ts : Nat) (newTok : KeycloakToken) (n : Nat)
    (hexp : tok.expiry < ts)
    (hok : keycloak_token_with_retry attempt sched_max_retries =
      (Except.ok newTok, n)) :
    (refresh_tick attempt tok ts).callbacks = [newTok]
    ∧ (refresh_tick attempt tok ts).token = newTok
    ∧ (refresh_tick attempt tok ts).trace.countP isCallbackStep = 1
    ∧ ∃ pre, (refresh_tick attempt tok ts).trace =
        pre ++ [{ event := Event.storeWrite newTok, writeLockHeld := true },
                { event := Event.callback newTok, writeLockHeld := false }]
      ∧ pre.countP isCallbackStep = 0 := by
  unfold refresh_tick
  rw [if_pos hexp, hok]
  refine ⟨rfl, rfl, ?_, ?_⟩
  · show ({ event := Event.readExpiry, writeLockHeld := false } ::
      { event := Event.readOldToken, writeLockHeld := false } ::
      netTrace n ++
        [{ event := Event.storeWrite newTok, writeLockHeld := true },
         { event := Event.callback newTok, writeLockHeld := false }] :
        List Step).countP isCallbackStep = 1
    simp [List.countP_cons, List.countP_append, isCallbackStep,
      netTrace_no_callback]
  · refine ⟨{ event := Event.readExpiry, writeLockHeld := false } ::
      { event := Event.readOldToken, writeLockHeld := false } :: netTrace n,
      rfl, ?_⟩
    simp [List.countP_cons, isCallbackStep, netTrace_no_callback]

/-- C6 witness: with an oracle that succeeds at once, the tick at 101 on a
token expiring at 100 stores the new token, invokes the callback once with
it, and the callback follows the store write at the end of the trace. -/
theorem refresh_tick_callback_once_witness :
    (refresh_tick attemptOk tokOld 101).callbacks = [tokNew]
    ∧ (refresh_tick attemptOk tokOld 101).token = tokNew
    ∧ (refresh_tick attemptOk tokOld 101).trace.countP isCallbackStep = 1
    ∧ ∃ pre, (refresh_tick attemptOk tokOld 101).trace =
        pre ++ [{ event := Event.storeWrite tokNew, writeLockHeld := true },
                { event := Event.callback tokNew, writeLockHeld := false }]
      ∧ pre.countP isCallbackStep = 0 :=
  refresh_tick_callback_once attemptOk tokOld 101 tokNew 1 (by decide) rfl

/-- C7: when a refresh exhausts all retries the task panics: the tick
reports termination, leaves the stored token unchanged and invokes no
callback, and a terminated scheduler processes no further ticks. -/
theorem refresh_tick_exhaustion_fatal {ε : Type}
    (attempt : Nat → Except ε KeycloakToken)
    (tok : KeycloakToken) (ts : Nat)
    (hexp : tok.expiry < ts)
    (hfail : ∀ j, j ≤ sched_max_retries → isErr (attempt j) = true) :
    (refresh_tick attempt tok ts).terminated = true
    ∧ (refresh_tick attempt tok ts).token = tok
    ∧ (refresh_tick attempt tok ts).callbacks = []
    ∧ ∀ (oc : Nat → Nat → Except ε KeycloakToken) (rest : List Nat) (i : Nat),
        schedRun oc rest i tok true = (tok, true, []) := by
  obtain ⟨e, _, hloop⟩ :=
    retryLoop_all_fail attempt sched_max_retries 0
      (fun j _ h2 => hfail j (by omega))
  have hkwr : keycloak_token_with_retry attempt sched_max_retries =
      (Except.error e, sched_max_retries + 1) := by
    unfold keycloak_token_with_retry
    simpa using hloop
  unfold refresh_tick
  rw [if_pos hexp, hkwr]
  refine ⟨rfl, rfl, rfl, ?_⟩
  intro oc rest i
  cases rest with
  | nil => rfl
  | cons t r => simp [schedRun]

/-- C7 witness: with an always-failing oracle, the tick at 101 terminates
with the store unchanged and no callback, and a run from the terminated
state over further tick instants does nothing. -/
theorem refresh_tick_exhaustion_fatal_witness :
    (refresh_tick attemptFail tokOld 101).terminated = true
    ∧ (refresh_tick attemptFail tokOld 101).token = tokOld
    ∧ (refresh_tick attemptFail tokOld 101).callbacks = []
    ∧ schedRun ocFail [200, 300] 1 tokOld true = (tokOld, true, []) := by
  have h := refresh_tick_exhaustion_fatal attemptFail tokOld 101 (by decide)
    (fun j _ => rfl)
  exact ⟨h.1, h.2.1, h.2.2.1, h.2.2.2 ocFail [200, 300] 1⟩

/-- C8: on every tick, the exclusive write lock is held only during the
atomic store swap — never during a network attempt or the callback — and a
reader interleaved after any number of trace steps observes either the
complete pre-update token or the complete post-update token, never a
partial value. -/
theorem refresh_tick_lock_atomicity {ε : Type}
    (attempt : Nat → Except ε KeycloakToken)
    (tok : KeycloakToken) (ts : Nat) :
    (∀ s ∈ (refresh_tick attempt tok ts).trace, s.writeLockHeld = true →
        ∃ t, s.event = Event.storeWrite t)
    ∧ ∀ k, storeAfter tok ((refresh_tick attempt tok ts).trace.take k) = tok
        ∨ storeAfter tok ((refresh_tick attempt tok ts).trace.take k) =
            (refresh_tick attempt tok ts).token := by
  unfold refresh_tick
  by_cases hexp : tok.expiry < ts
  · rw [if_pos hexp]
    rcases hk : keycloak_token_with_retry attempt sched_max_retries with ⟨res, n⟩
    cases res with
    | ok newTok =>
      constructor
      · intro s hs hwl
        exact (success_trace_facts newTok n s hs).1 hwl
      · intro k
        exact storeAfter_take newTok tok _
          (fun s hs => (success_trace_facts newTok n s hs).2) k
    | error e =>
      constructor
      · intro s hs hwl
        have hf := (fail_trace_facts n s hs).1
        rw [hf] at hwl
        exact absurd hwl (by simp)
      · intro k
        exact storeAfter_take tok tok _
          (fun s hs t ht => ((fail_trace_facts n s hs).2 t ht).elim) k
  · rw [if_neg hexp]
    constructor
    · intro s hs hwl
      have hse : s = { event := Event.readExpiry, writeLockHeld := false } := by
        simpa using hs
      rw [hse] at hwl
      exact absurd hwl (by simp)
    · intro k
      refine Or.inl ?_
      cases k with
      | zero => rfl
      | succ k =>
        show storeAfter tok (List.take (k + 1)
          [{ event := Event.readExpiry, writeLockHeld := false }]) = tok
        rw [List.take_succ_cons, List.take_nil]
        rfl

/-- C8 witness: in the concrete successful-refresh trace, the one step
holding the write lock is the store write, and a reader interleaved after
three steps sees a complete token value. -/
theorem refresh_tick_lock_atomicity_witness :
    (∃ t, ({ event := Event.storeWrite tokNew, writeLockHeld := true } :
        Step).event = Event.storeWrite t)
    ∧ (storeAfter tokOld ((refresh_tick attemptOk tokOld 101).trace.take 3) = tokOld
      ∨ storeAfter tokOld ((refresh_tick attemptOk tokOld 101).trace.take 3) =
          (refresh_tick attemptOk tokOld 101).token) := by
  have h := refresh_tick_lock_atomicity attemptOk tokOld 101
  exact ⟨h.1 { event := Event.storeWrite tokNew, writeLockHeld := true }
    (by decide) rfl, h.2 3⟩

/-- C10: the scheduler's retry bound is the fixed constant 3 (no parameter
of the loop), so an expired-token tick performs at most 4 underlying
acquisition attempts. -/
theorem refresh_tick_retry_bound {ε : Type}
    (attempt : Nat → Except ε KeycloakToken)
    (tok : KeycloakToken) (ts : Nat) :
    sched_max_retries = 3
    ∧ (refresh_tick attempt tok ts).attempts ≤ sched_max_retries + 1 := by
  refine ⟨rfl, ?_⟩
  unfold refresh_tick
  by_cases hexp : tok.expiry < ts
  · rw [if_pos hexp]
    rcases hk : keycloak_token_with_retry attempt sched_max_retries with ⟨res, n⟩
    have hb : n ≤ sched_max_retries + 1 := by
      have hle := retryLoop_attempts_le attempt sched_max_retries 0
      unfold keycloak_token_with_retry at hk
      rw [hk] at hle
      simpa using hle
    cases res <;> simpa using hb
  · rw [if_neg hexp]
    simp
